import Mathlib

/-!
Verification development for the odm-plugin-envoy-proxy-js repository.

Shallow embedding of the core of the plugin:

* the configuration data model (`src/config-types`, see `unnamed/part_001`),
* the `Compiler` class (`src/config-compiler/compiler.ts`): cluster merge by
  name and route append into the first virtual host,
* the `ConfigDiscover` class (source listing embedded in `README.md`):
  directory walking and YAML fragment collection, with the `FsTools` /
  `YamlTools` collaborators modelled as an abstract file system,
* the `EnvoyProxyPlugin.execute` flow (statement order of the collect /
  collectBase / build / write sequence).

Route records are opaque to the whole core (identity is positional only), so
every definition is polymorphic in the route element type `ρ`.
-/

namespace EnvoyProxy

/-- Cluster record (`Cluster` in src/config-types): identified by its `name`
field.  The merge logic reads only `name` and carries the record opaquely, so
of the many optional fields we keep just the required `type` field as the
payload that lets two clusters with the same name differ. -/
structure Cluster where
  name : String
  type : String
  deriving DecidableEq, Repr

/-- Virtual host (`VirtualHost` in src/config-types): carries the route list
the compiler appends to.  `ρ` is the opaque route record type. -/
structure VirtualHost (ρ : Type) where
  name : String
  domains : List String
  routes : List ρ
  deriving DecidableEq, Repr

/-- Route configuration (`RouteConfig` in src/config-types).  The interface
declares `virtual_hosts` required, but `Compiler.addRoute` guards against its
absence at runtime, so it is embedded as an `Option`. -/
structure RouteConfig (ρ : Type) where
  name : String
  virtual_hosts : Option (List (VirtualHost ρ))
  deriving DecidableEq, Repr

/-- Filter typed config (`HttpConnectionManagerTypedConfig` in
src/config-types): only the optional `route_config` is read by the core. -/
structure TypedConfig (ρ : Type) where
  route_config : Option (RouteConfig ρ)
  deriving DecidableEq, Repr

/-- Network filter (`Filter` in src/config-types).  `typed_config` is declared
required but guarded against absence by `Compiler.addRoute`, hence `Option`. -/
structure Filter (ρ : Type) where
  name : String
  typed_config : Option (TypedConfig ρ)
  deriving DecidableEq, Repr

/-- Filter chain (`FilterChain` in src/config-types); `filters` guarded, hence
`Option`. -/
structure FilterChain (ρ : Type) where
  filters : Option (List (Filter ρ))
  deriving DecidableEq, Repr

/-- Listener (`Listener` in src/config-types); the `address` field is never
read by the core and is omitted.  `filter_chains` is guarded against absence
by `Compiler.addRoute`, hence `Option`. -/
structure Listener (ρ : Type) where
  name : String
  filter_chains : Option (List (FilterChain ρ))
  deriving DecidableEq, Repr

/-- Static resources (`StaticResources` in src/config-types): the two mutable
slots of the merge, the listener list (routes live inside the first listener)
and the cluster list. -/
structure StaticResources (ρ : Type) where
  listeners : List (Listener ρ)
  clusters : List Cluster
  deriving DecidableEq, Repr

/-- The base document (`EnvoyConfig` in src/config-types). -/
structure EnvoyConfig (ρ : Type) where
  static_resources : StaticResources ρ
  deriving DecidableEq, Repr

/-- A service fragment (`ServiceConfg` in src/config-types): the clusters and
routes discovered for one service directory. -/
structure ServiceConfg (ρ : Type) where
  clusters : List Cluster
  routes : List ρ
  deriving DecidableEq, Repr

/-! ## Compiler (src/config-compiler/compiler.ts) -/

/-- One iteration of the cluster-merge loop of `Compiler.mergeConfig`
(compiler.ts lines 82-92): `findIndex` of the first entry with the same
`name`; if found (`hasCluster` is not `-1`) the new cluster overwrites that
slot, otherwise it is `push`ed at the end. -/
def mergeClusterOne (cs : List Cluster) (newCluster : Cluster) : List Cluster :=
  match cs.findIdx? (fun cluster => newCluster.name == cluster.name) with
  | none => cs ++ [newCluster]
  | some i => cs.set i newCluster

/-- The whole cluster-merge loop of `Compiler.mergeConfig` over one fragment's
cluster list, in fragment order. -/
def mergeClusters (cs : List Cluster) (newClusters : List Cluster) : List Cluster :=
  newClusters.foldl mergeClusterOne cs

/-- Recursive characterization of `mergeClusterOne` (replace the first
name-match in place, otherwise append), used for inductive reasoning. -/
def replaceFirst : List Cluster → Cluster → List Cluster
  | [], nc => [nc]
  | c :: cs, nc => if nc.name = c.name then nc :: cs else c :: replaceFirst cs nc

/-- First cluster with the given name (the entry `findIndex` locates). -/
def clusterFind : List Cluster → String → Option Cluster
  | [], _ => none
  | c :: cs, n => if c.name = n then some c else clusterFind cs n

/-- Last cluster with the given name in a list: the winner under repeated
replace-or-append merging. -/
def lastNamed (ncs : List Cluster) (n : String) : Option Cluster :=
  clusterFind ncs.reverse n

/-- The last cluster named `n` among all fragments' clusters, in merge
order. -/
def lastMergedCluster {ρ : Type} (frags : List (ServiceConfg ρ)) (n : String) :
    Option Cluster :=
  lastNamed ((frags.map (fun s => s.clusters)).flatten) n

/-- Core of `Compiler.addRoute` (compiler.ts lines 44-68), acting on the
listener list: the chained presence/length guards on
`listeners[0].filter_chains[0].filters[0].typed_config.route_config.virtual_hosts[0]`,
and on success the `concat` of the new routes onto the first virtual host's
route list.  When any level is absent or empty the listener list is returned
untouched (the source simply skips the assignment). -/
def addRouteListeners {ρ : Type} (ls : List (Listener ρ)) (routesToAdd : List ρ) :
    List (Listener ρ) :=
  match ls with
  | [] => []
  | l0 :: rest =>
    match l0.filter_chains with
    | none => l0 :: rest
    | some [] => l0 :: rest
    | some (fc0 :: fcs) =>
      match fc0.filters with
      | none => l0 :: rest
      | some [] => l0 :: rest
      | some (f0 :: fs) =>
        match f0.typed_config with
        | none => l0 :: rest
        | some tc =>
          match tc.route_config with
          | none => l0 :: rest
          | some rc =>
            match rc.virtual_hosts with
            | none => l0 :: rest
            | some [] => l0 :: rest
            | some (vh0 :: vhs) =>
              { l0 with
                filter_chains := some
                  ({ fc0 with
                     filters := some
                       ({ f0 with
                          typed_config := some
                            { tc with
                              route_config := some
                                { rc with
                                  virtual_hosts := some
                                    ({ vh0 with routes := vh0.routes ++ routesToAdd }
                                      :: vhs) } } } :: fs) } :: fcs) } :: rest

/-- `Compiler.addRoute` on a (non-null) store: replaces the listener list with
the (possibly untouched) updated one; no other part of the document is
written. -/
def addRoute {ρ : Type} (store : EnvoyConfig ρ) (routesToAdd : List ρ) : EnvoyConfig ρ :=
  { store with
    static_resources :=
      { store.static_resources with
        listeners := addRouteListeners store.static_resources.listeners routesToAdd } }

/-- Resolution of the nested virtual-host path used by `Compiler.addRoute`'s
guards (and by `getRouteArray` of the immutable compiler variant in
`unnamed/part_000`): `some` of the first virtual host's route list when every
level is present and nonempty, `none` otherwise. -/
def vhRoutesOfListeners? {ρ : Type} (ls : List (Listener ρ)) : Option (List ρ) :=
  match ls with
  | [] => none
  | l0 :: _ =>
    match l0.filter_chains with
    | none => none
    | some [] => none
    | some (fc0 :: _) =>
      match fc0.filters with
      | none => none
      | some [] => none
      | some (f0 :: _) =>
        match f0.typed_config with
        | none => none
        | some tc =>
          match tc.route_config with
          | none => none
          | some rc =>
            match rc.virtual_hosts with
            | none => none
            | some [] => none
            | some (vh0 :: _) => some vh0.routes

/-- The first virtual host's route list of a document, when the nested path
fully resolves. -/
def getVhRoutes? {ρ : Type} (store : EnvoyConfig ρ) : Option (List ρ) :=
  vhRoutesOfListeners? store.static_resources.listeners

/-- The cluster list of a document. -/
def clustersOf {ρ : Type} (store : EnvoyConfig ρ) : List Cluster :=
  store.static_resources.clusters

/-- `Compiler.mergeConfig` on a (non-null) store: merge the fragment's
clusters by name, then append its routes via `addRoute`. -/
def mergeConfig {ρ : Type} (store : EnvoyConfig ρ) (service : ServiceConfg ρ) :
    EnvoyConfig ρ :=
  addRoute
    { store with
      static_resources :=
        { store.static_resources with
          clusters := mergeClusters store.static_resources.clusters service.clusters } }
    service.routes

/-- `Compiler.build` on a non-null store: fold every service configuration
into the store, in input order.  (The null re-check inside the source loop can
never fire because `mergeConfig` never nullifies the store.) -/
def buildFrom {ρ : Type} (base : EnvoyConfig ρ) (serviceConfigs : List (ServiceConfg ρ)) :
    EnvoyConfig ρ :=
  serviceConfigs.foldl mergeConfig base

/-- `Compiler.build` including the null-store guard: a null store is returned
unchanged (the loop returns immediately), otherwise the fold runs. -/
def build {ρ : Type} (store : Option (EnvoyConfig ρ))
    (serviceConfigs : List (ServiceConfg ρ)) : Option (EnvoyConfig ρ) :=
  store.map (fun s => buildFrom s serviceConfigs)

/-! ## JavaScript-level merge of a possibly malformed fragment

`ServiceConfg` above is the TypeScript interface; at runtime a caller can pass
a fragment whose `clusters` or `routes` field is `undefined` (the test
"should handle service config with undefined properties" does exactly that).
We model such raw fragments with `Option` fields, and route lists over
`Option ρ`, where `none` stands for the JavaScript value `undefined`. -/

/-- A fragment as the JavaScript runtime may see it: either field can be
`undefined` (modelled `none`). -/
structure ServiceConfgRaw (ρ : Type) where
  clusters : Option (List Cluster)
  routes : Option (List ρ)
  deriving DecidableEq, Repr

/-- The failure raised by `for (const newCluster of service.clusters)` when
`service.clusters` is `undefined`. -/
def typeErrorMsg : String := "TypeError: service.clusters is not iterable"

/-- `Compiler.mergeConfig` at the JavaScript level, on a raw fragment:
iterating an `undefined` cluster list throws (modelled `Except.error`);
`routes.concat(undefined)` does not throw but appends the single element
`undefined` (modelled `none`) to the route list. -/
def mergeConfigRaw {ρ : Type} (store : EnvoyConfig (Option ρ))
    (service : ServiceConfgRaw ρ) : Except String (EnvoyConfig (Option ρ)) :=
  match service.clusters with
  | none => .error typeErrorMsg
  | some cs =>
    let withClusters : EnvoyConfig (Option ρ) :=
      { store with
        static_resources :=
          { store.static_resources with
            clusters := mergeClusters store.static_resources.clusters cs } }
    match service.routes with
    | some rs => .ok (addRoute withClusters (rs.map some))
    | none => .ok (addRoute withClusters [none])

/-- `Compiler.build` at the JavaScript level: an exception raised by a merge
step propagates to the caller (the loop does not resume). -/
def buildRaw {ρ : Type} (store : EnvoyConfig (Option ρ)) :
    List (ServiceConfgRaw ρ) → Except String (EnvoyConfig (Option ρ))
  | [] => .ok store
  | s :: rest =>
    match mergeConfigRaw store s with
    | .error e => .error e
    | .ok store1 => buildRaw store1 rest

/-! ## Discovery (ConfigDiscover, listing in README.md)

The file-system and YAML collaborators (`FsTools.listDirContents`,
`YamlTools.read_yaml`) are modelled as an abstract `FileSystem`: paths are
segment lists (`node:path` `join` is segment append), a directory listing or a
YAML parse either succeeds or yields the null sentinel (`none`). -/

/-- Result of `FsTools.listDirContents`: directory entries split into folders
and files (in underlying listing order, unsorted). -/
structure DirListing where
  folders : List String
  files : List String
  deriving DecidableEq, Repr

/-- A parsed fragment YAML document: a `routes` and/or a `clusters` key, each
present-and-an-array (`some`) or absent / not an array (`none`). -/
structure YamlDoc (ρ : Type) where
  routes : Option (List ρ)
  clusters : Option (List Cluster)
  deriving DecidableEq, Repr

/-- The external collaborators: `listDir` models `FsTools.listDirContents`
(`none` on any OS error), `readYaml` models `YamlTools.read_yaml` on fragment
files (`none` on missing file or parse error), and `readBase` is the typed
view of `YamlTools.read_yaml` at the base-document path. -/
structure FileSystem (ρ : Type) where
  listDir : List String → Option DirListing
  readYaml : List String → Option (YamlDoc ρ)
  readBase : List String → Option (EnvoyConfig ρ)

/-- JavaScript `haystack.includes(needle)`: substring containment.  This is
the file filter actually used by `getRoutes` / `getClusters`
(`f.includes(".yaml")`). -/
def jsIncludes (needle hay : String) : Bool :=
  decide (needle.toList <:+: hay.toList)

/-- The discovery file filter `f.includes(".yaml")`. -/
def hasYamlToken (f : String) : Bool :=
  jsIncludes ".yaml" f

/-- A file name ending in `".yaml"` (what the spec says the filter is). -/
def endsWithYaml (f : String) : Bool :=
  decide (".yaml".toList <:+ f.toList)

/-- `ConfigDiscover.readRouteYaml`: parse one file as a document exposing a
`routes` array; any failure (missing file, parse error, key absent or not an
array) degrades to the empty contribution. -/
def readRouteYaml {ρ : Type} (fs : FileSystem ρ) (filePath : List String) : List ρ :=
  match fs.readYaml filePath with
  | none => []
  | some doc =>
    match doc.routes with
    | some rs => rs
    | none => []

/-- `ConfigDiscover.readClusterYaml`: same for the `clusters` array. -/
def readClusterYaml {ρ : Type} (fs : FileSystem ρ) (filePath : List String) : List Cluster :=
  match fs.readYaml filePath with
  | none => []
  | some doc =>
    match doc.clusters with
    | some cs => cs
    | none => []

/-- The file loop of `ConfigDiscover.getRoutes` over a known file list:
every file whose name contains `".yaml"` contributes its parsed routes,
pushed in listing order. -/
def getRoutesFiles {ρ : Type} (fs : FileSystem ρ) (folderPath : List String)
    (files : List String) : List ρ :=
  files.foldl
    (fun acc f =>
      if hasYamlToken f then acc ++ readRouteYaml fs (folderPath ++ [f]) else acc)
    []

/-- `ConfigDiscover.getRoutes`: list the folder (empty contribution when the
listing fails) and run the file loop. -/
def getRoutes {ρ : Type} (fs : FileSystem ρ) (folderPath : List String) : List ρ :=
  match fs.listDir folderPath with
  | none => []
  | some contents => getRoutesFiles fs folderPath contents.files

/-- The file loop of `ConfigDiscover.getClusters`. -/
def getClustersFiles {ρ : Type} (fs : FileSystem ρ) (folderPath : List String)
    (files : List String) : List Cluster :=
  files.foldl
    (fun acc f =>
      if hasYamlToken f then acc ++ readClusterYaml fs (folderPath ++ [f]) else acc)
    []

/-- `ConfigDiscover.getClusters`. -/
def getClusters {ρ : Type} (fs : FileSystem ρ) (folderPath : List String) : List Cluster :=
  match fs.listDir folderPath with
  | none => []
  | some contents => getClustersFiles fs folderPath contents.files

/-- `ConfigDiscover.findServiceConfigs`: list the service directory (skip on
failure), look for the configured subfolder name among the folders (skip when
absent), collect routes and clusters from its `routes/` and `clusters/`
sub-subfolders, and emit a fragment only when something was found. -/
def findServiceConfigs {ρ : Type} (fs : FileSystem ρ) (configFolderName : String)
    (folderPath : List String) : Option (ServiceConfg ρ) :=
  match fs.listDir folderPath with
  | none => none
  | some contents =>
    match contents.folders.find? (fun f => f == configFolderName) with
    | none => none
    | some configFolder =>
      let rs := getRoutes fs (folderPath ++ [configFolder, "routes"])
      let cs := getClusters fs (folderPath ++ [configFolder, "clusters"])
      if rs.length > 0 || cs.length > 0 then some { clusters := cs, routes := rs }
      else none

/-- `ConfigDiscover.collect`: fold over the service paths in input order,
pushing the fragment of each non-skipped service. -/
def collect {ρ : Type} (fs : FileSystem ρ) (configFolderName : String)
    (folderPaths : List (List String)) : List (ServiceConfg ρ) :=
  folderPaths.foldl
    (fun services fp =>
      match findServiceConfigs fs configFolderName fp with
      | some s => services ++ [s]
      | none => services)
    []

/-- The message of the error thrown by `ConfigDiscover.collectBase`. -/
def configNotFoundMsg (baseConfigPath : List String) : String :=
  "base envoy config not found at " ++ String.intercalate "/" baseConfigPath

/-- `ConfigDiscover.collectBase`: parse the base path; throw (modelled
`Except.error`) when the collaborator returns the null sentinel. -/
def collectBase {ρ : Type} (fs : FileSystem ρ) (baseConfigPath : List String) :
    Except String (EnvoyConfig ρ) :=
  match fs.readBase baseConfigPath with
  | none => .error (configNotFoundMsg baseConfigPath)
  | some c => .ok c

/-! ## Plugin execute flow (EnvoyProxyPlugin.execute)

The statement order of `execute` matters for the error-handling claims:
`collect()` runs first, `collectBase()` second, then the compiler, then the
output write.  `executeSteps` records that order as an explicit trace, cut
short at the step whose exception aborts the run. -/

/-- Decidable equality for `Except`, needed to evaluate concrete execute
traces. -/
instance {ε α : Type} [DecidableEq ε] [DecidableEq α] : DecidableEq (Except ε α) := fun x y =>
  match x, y with
  | .error e, .error e' =>
    if h : e = e' then isTrue (by rw [h]) else isFalse fun hc => h (Except.error.inj hc)
  | .error _, .ok _ => isFalse fun hc => Except.noConfusion hc
  | .ok _, .error _ => isFalse fun hc => Except.noConfusion hc
  | .ok a, .ok a' =>
    if h : a = a' then isTrue (by rw [h]) else isFalse fun hc => h (Except.ok.inj hc)

/-- One observable step of `EnvoyProxyPlugin.execute`. -/
inductive ExecStep (ρ : Type) where
  | collectServices (services : List (ServiceConfg ρ))
  | loadBase (result : Except String (EnvoyConfig ρ))
  | compileStore (result : Option (EnvoyConfig ρ))
  | writeOutput (doc : EnvoyConfig ρ)
  deriving DecidableEq, Repr

/-- The trace of `EnvoyProxyPlugin.execute`: fragment collection always runs
first (line `const services = discovery.collect()` precedes
`discovery.collectBase()`); a `collectBase` throw ends the run there. -/
def executeSteps {ρ : Type} (fs : FileSystem ρ) (items : List (List String))
    (basePath : List String) (configFolderName : String) : List (ExecStep ρ) :=
  let services := collect fs configFolderName items
  match collectBase fs basePath with
  | .error e => [.collectServices services, .loadBase (.error e)]
  | .ok baseConfig =>
    match build (some baseConfig) services with
    | none =>
      [.collectServices services, .loadBase (.ok baseConfig), .compileStore none]
    | some compiled =>
      [.collectServices services, .loadBase (.ok baseConfig),
       .compileStore (some compiled), .writeOutput compiled]

/-- The result of `EnvoyProxyPlugin.execute`: the compiled document, or the
textual error the top-level catch converts an exception into. -/
def executeResult {ρ : Type} (fs : FileSystem ρ) (items : List (List String))
    (basePath : List String) (configFolderName : String) :
    Except String (EnvoyConfig ρ) :=
  let services := collect fs configFolderName items
  match collectBase fs basePath with
  | .error e => .error e
  | .ok baseConfig =>
    match build (some baseConfig) services with
    | none => .error "envoy proxy configuration compilation failed"
    | some compiled => .ok compiled

/-! ## Concrete fixtures

The example documents below follow the test suite's mock base configuration
and the spec's example scenario (base route `"/health"`, fragments adding
`"/v1"` and `"/v2"`; base cluster `existing_cluster`, fragment clusters
`svc1` and a redefinition of `existing_cluster`).  Routes are instantiated
with `ρ := String` holding the match prefix. -/

/-- Example base document with a fully resolving virtual-host path. -/
def exBase : EnvoyConfig String :=
  { static_resources :=
    { listeners :=
        [{ name := "main_listener",
           filter_chains := some
             [{ filters := some
                  [{ name := "envoy.filters.network.http_connection_manager",
                     typed_config := some
                       { route_config := some
                           { name := "local_route",
                             virtual_hosts := some
                               [{ name := "local_service",
                                  domains := ["*"],
                                  routes := ["/health"] }] } } }] }] }],
      clusters := [{ name := "existing_cluster", type := "LOGICAL_DNS" }] } }

/-- Fragment of the first example service. -/
def exFrag1 : ServiceConfg String :=
  { clusters := [{ name := "svc1", type := "svc1_type" }], routes := ["/v1"] }

/-- Fragment of the second example service, redefining `existing_cluster`. -/
def exFrag2 : ServiceConfg String :=
  { clusters := [{ name := "existing_cluster", type := "new" }], routes := ["/v2"] }

/-- The example fragment sequence, in input order. -/
def exFrags : List (ServiceConfg String) := [exFrag1, exFrag2]

/-- Example base document whose virtual-host path does not resolve (no
listeners at all). -/
def exBaseNoVh : EnvoyConfig String :=
  { static_resources :=
    { listeners := [],
      clusters := [{ name := "existing_cluster", type := "LOGICAL_DNS" }] } }

/-- Example base document with two clusters sharing one name (the data model
does not forbid this). -/
def exBaseDup : EnvoyConfig String :=
  { static_resources :=
    { listeners := [],
      clusters :=
        [{ name := "dup", type := "t1" }, { name := "dup", type := "t2" }] } }

/-- Fragment redefining the duplicated name of `exBaseDup`. -/
def exFragDup : ServiceConfg String :=
  { clusters := [{ name := "dup", type := "t3" }], routes := [] }

/-- The example base document over JavaScript-level route values. -/
def exBaseOpt : EnvoyConfig (Option String) :=
  { static_resources :=
    { listeners :=
        [{ name := "main_listener",
           filter_chains := some
             [{ filters := some
                  [{ name := "envoy.filters.network.http_connection_manager",
                     typed_config := some
                       { route_config := some
                           { name := "local_route",
                             virtual_hosts := some
                               [{ name := "local_service",
                                  domains := ["*"],
                                  routes := [some "/health"] }] } } }] }] }],
      clusters := [{ name := "existing_cluster", type := "LOGICAL_DNS" }] } }

/-- `exBaseOpt` after merging a fragment whose `routes` field is `undefined`:
`concat(undefined)` has appended the single element `undefined`. -/
def exMergedOpt : EnvoyConfig (Option String) :=
  { static_resources :=
    { listeners :=
        [{ name := "main_listener",
           filter_chains := some
             [{ filters := some
                  [{ name := "envoy.filters.network.http_connection_manager",
                     typed_config := some
                       { route_config := some
                           { name := "local_route",
                             virtual_hosts := some
                               [{ name := "local_service",
                                  domains := ["*"],
                                  routes := [some "/health", none] }] } } }] }] }],
      clusters := [{ name := "existing_cluster", type := "LOGICAL_DNS" }] } }

/-- Example file system: one service directory `svc` with an `envoy/routes`
folder holding one route file; the base document path is missing and listing
any other directory fails. -/
def exFS5 : FileSystem String :=
  { listDir := fun p =>
      if p = ["svc"] then some { folders := ["envoy"], files := [] }
      else if p = ["svc", "envoy", "routes"] then
        some { folders := [], files := ["r.yaml"] }
      else none,
    readYaml := fun p =>
      if p = ["svc", "envoy", "routes", "r.yaml"] then
        some { routes := some ["/v1"], clusters := none }
      else none,
    readBase := fun _ => none }

/-- Example file system for the file-name filter: the routes folder holds a
single file whose name contains, but does not end in, `".yaml"`. -/
def exFS8 : FileSystem String :=
  { listDir := fun p =>
      if p = ["svc", "envoy", "routes"] then
        some { folders := [], files := ["r.yaml.bak"] }
      else none,
    readYaml := fun p =>
      if p = ["svc", "envoy", "routes", "r.yaml.bak"] then
        some { routes := some ["/bak"], clusters := none }
      else none,
    readBase := fun _ => none }

/-- Example file system for the malformed-file policy: the routes folder holds
one valid and one unparsable file. -/
def exFS7 : FileSystem String :=
  { listDir := fun p =>
      if p = ["svc", "envoy", "routes"] then
        some { folders := [], files := ["good.yaml", "bad.yaml"] }
      else none,
    readYaml := fun p =>
      if p = ["svc", "envoy", "routes", "good.yaml"] then
        some { routes := some ["/ok"], clusters := none }
      else none,
    readBase := fun _ => none }

/-! ## Lemmas about the cluster merge -/

/-- The `findIndex`-based merge step equals the recursive replace-or-append
characterization. -/
theorem mergeClusterOne_eq_replaceFirst (cs : List Cluster) (nc : Cluster) :
    mergeClusterOne cs nc = replaceFirst cs nc := by
  induction cs with
  | nil => rfl
  | cons c cs ih =>
    by_cases hc : nc.name = c.name
    · have hcb : (nc.name == c.name) = true := beq_iff_eq.mpr hc
      simp [mergeClusterOne, replaceFirst, List.findIdx?_cons, hcb, hc]
    · have hcb : (nc.name == c.name) = false := by simp [hc]
      rw [replaceFirst, if_neg hc, ← ih]
      simp only [mergeClusterOne, List.findIdx?_cons, hcb, Bool.false_eq_true,
        if_false, List.findIdx?_succ]
      cases cs.findIdx? (fun cluster => nc.name == cluster.name) with
      | none => rfl
      | some i => rfl

/-- Merge of one cluster: lookup by name afterwards finds the new cluster at
its own name and is unchanged at any other name. -/
theorem clusterFind_replaceFirst (cs : List Cluster) (nc : Cluster) (n : String) :
    clusterFind (replaceFirst cs nc) n =
      if nc.name = n then some nc else clusterFind cs n := by
  induction cs with
  | nil => simp only [replaceFirst, clusterFind]
  | cons c cs ih =>
    by_cases hc : nc.name = c.name
    · rw [replaceFirst, if_pos hc]
      by_cases h : nc.name = n
      · rw [clusterFind, if_pos h, if_pos h]
      · have hcn : ¬ c.name = n := fun hcn => h (hc.trans hcn)
        rw [clusterFind, if_neg h, if_neg h, clusterFind, if_neg hcn]
    · rw [replaceFirst, if_neg hc]
      by_cases hcn : c.name = n
      · have h : ¬ nc.name = n := fun hh => hc (hh.trans hcn.symm)
        rw [clusterFind, if_pos hcn, if_neg h, clusterFind, if_pos hcn]
      · rw [clusterFind, if_neg hcn, ih]
        by_cases h : nc.name = n
        · rw [if_pos h, if_pos h]
        · rw [if_neg h, if_neg h, clusterFind, if_neg hcn]

/-- Every name in the merged list already occurred or is the new name. -/
theorem mem_names_replaceFirst {cs : List Cluster} {nc : Cluster} {x : String}
    (hx : x ∈ (replaceFirst cs nc).map Cluster.name) :
    x ∈ cs.map Cluster.name ∨ x = nc.name := by
  induction cs with
  | nil =>
    simp only [replaceFirst, List.map_cons, List.map_nil, List.mem_singleton] at hx
    exact Or.inr hx
  | cons c cs ih =>
    by_cases hc : nc.name = c.name
    · rw [replaceFirst, if_pos hc] at hx
      rw [List.map_cons, List.mem_cons] at hx
      rcases hx with h | h
      · exact Or.inr h
      · exact Or.inl (by rw [List.map_cons]; exact List.mem_cons_of_mem _ h)
    · rw [replaceFirst, if_neg hc] at hx
      rw [List.map_cons, List.mem_cons] at hx
      rcases hx with h | h
      · exact Or.inl (by rw [List.map_cons, h]; exact List.mem_cons_self _ _)
      · rcases ih h with h' | h'
        · exact Or.inl (by rw [List.map_cons]; exact List.mem_cons_of_mem _ h')
        · exact Or.inr h'

/-- Replace-or-append keeps the names pairwise distinct. -/
theorem nodup_names_replaceFirst {cs : List Cluster} (nc : Cluster)
    (h : (cs.map Cluster.name).Nodup) :
    ((replaceFirst cs nc).map Cluster.name).Nodup := by
  induction cs with
  | nil => simp [replaceFirst]
  | cons c cs ih =>
    rw [List.map_cons, List.nodup_cons] at h
    obtain ⟨hnotin, hnodup⟩ := h
    by_cases hc : nc.name = c.name
    · rw [replaceFirst, if_pos hc, List.map_cons, List.nodup_cons]
      exact ⟨by rw [hc]; exact hnotin, hnodup⟩
    · rw [replaceFirst, if_neg hc, List.map_cons, List.nodup_cons]
      refine ⟨fun hmem => ?_, ih hnodup⟩
      rcases mem_names_replaceFirst hmem with h' | h'
      · exact hnotin h'
      · exact hc h'.symm

/-- Lookup by name distributes over list append. -/
theorem clusterFind_append (l₁ l₂ : List Cluster) (n : String) :
    clusterFind (l₁ ++ l₂) n = (clusterFind l₁ n).or (clusterFind l₂ n) := by
  induction l₁ with
  | nil => rfl
  | cons c l₁ ih =>
    by_cases h : c.name = n
    · rw [List.cons_append]
      rw [show clusterFind (c :: (l₁ ++ l₂)) n = some c from if_pos h]
      rw [show clusterFind (c :: l₁) n = some c from if_pos h]
      rfl
    · rw [List.cons_append]
      rw [show clusterFind (c :: (l₁ ++ l₂)) n = clusterFind (l₁ ++ l₂) n from if_neg h]
      rw [show clusterFind (c :: l₁) n = clusterFind l₁ n from if_neg h]
      rw [ih]

/-- Unfolding `lastNamed` over a cons. -/
theorem lastNamed_cons (nc : Cluster) (rest : List Cluster) (n : String) :
    lastNamed (nc :: rest) n =
      (lastNamed rest n).or (if nc.name = n then some nc else none) := by
  rw [lastNamed, List.reverse_cons, clusterFind_append]
  rfl

/-- Unfolding the cluster-merge fold over a cons. -/
theorem mergeClusters_cons (cs : List Cluster) (nc : Cluster) (rest : List Cluster) :
    mergeClusters cs (nc :: rest) = mergeClusters (mergeClusterOne cs nc) rest := rfl

/-- The cluster-merge fold keeps names pairwise distinct. -/
theorem nodup_names_mergeClusters (ncs : List Cluster) {cs : List Cluster}
    (h : (cs.map Cluster.name).Nodup) :
    ((mergeClusters cs ncs).map Cluster.name).Nodup := by
  induction ncs generalizing cs with
  | nil => exact h
  | cons nc rest ih =>
    rw [mergeClusters_cons]
    exact ih (by rw [mergeClusterOne_eq_replaceFirst]; exact nodup_names_replaceFirst nc h)

/-- Last-write-wins: after the cluster-merge fold, lookup by name yields the
last merged cluster with that name, and falls back to the original entry when
no fragment cluster carried the name. -/
theorem clusterFind_mergeClusters (ncs : List Cluster) (cs : List Cluster) (n : String) :
    clusterFind (mergeClusters cs ncs) n = (lastNamed ncs n).or (clusterFind cs n) := by
  induction ncs generalizing cs with
  | nil => rfl
  | cons nc rest ih =>
    rw [mergeClusters_cons, ih, lastNamed_cons, mergeClusterOne_eq_replaceFirst,
      clusterFind_replaceFirst, Option.or_assoc]
    congr 1
    by_cases h : nc.name = n
    · rw [if_pos h, if_pos h, Option.or_some]
    · rw [if_neg h, if_neg h, Option.none_or]

/-! ## Lemmas about the route merge -/

/-- Behaviour of the guarded route append on the listener list: either the
nested virtual-host path does not resolve and the list is untouched, or it
resolves to some route list `r` and afterwards resolves to `r ++ rs`. -/
theorem addRouteListeners_spec {ρ : Type} (ls : List (Listener ρ)) (rs : List ρ) :
    (vhRoutesOfListeners? ls = none ∧ addRouteListeners ls rs = ls) ∨
    (∃ r, vhRoutesOfListeners? ls = some r ∧
      vhRoutesOfListeners? (addRouteListeners ls rs) = some (r ++ rs)) := by
  cases ls with
  | nil => exact Or.inl ⟨rfl, rfl⟩
  | cons l0 rest =>
    obtain ⟨lname, fc?⟩ := l0
    cases fc? with
    | none => exact Or.inl ⟨rfl, rfl⟩
    | some fcs =>
      cases fcs with
      | nil => exact Or.inl ⟨rfl, rfl⟩
      | cons fc0 fcs =>
        obtain ⟨fl?⟩ := fc0
        cases fl? with
        | none => exact Or.inl ⟨rfl, rfl⟩
        | some fls =>
          cases fls with
          | nil => exact Or.inl ⟨rfl, rfl⟩
          | cons f0 fls =>
            obtain ⟨fname, tc?⟩ := f0
            cases tc? with
            | none => exact Or.inl ⟨rfl, rfl⟩
            | some tc =>
              obtain ⟨rc?⟩ := tc
              cases rc? with
              | none => exact Or.inl ⟨rfl, rfl⟩
              | some rc =>
                obtain ⟨rcname, vh?⟩ := rc
                cases vh? with
                | none => exact Or.inl ⟨rfl, rfl⟩
                | some vhs =>
                  cases vhs with
                  | nil => exact Or.inl ⟨rfl, rfl⟩
                  | cons vh0 vhs => exact Or.inr ⟨vh0.routes, rfl, rfl⟩

/-- Appending the empty route list never changes the listener list. -/
theorem addRouteListeners_nil {ρ : Type} (ls : List (Listener ρ)) :
    addRouteListeners ls [] = ls := by
  cases ls with
  | nil => rfl
  | cons l0 rest =>
    obtain ⟨lname, fc?⟩ := l0
    cases fc? with
    | none => rfl
    | some fcs =>
      cases fcs with
      | nil => rfl
      | cons fc0 fcs =>
        obtain ⟨fl?⟩ := fc0
        cases fl? with
        | none => rfl
        | some fls =>
          cases fls with
          | nil => rfl
          | cons f0 fls =>
            obtain ⟨fname, tc?⟩ := f0
            cases tc? with
            | none => rfl
            | some tc =>
              obtain ⟨rc?⟩ := tc
              cases rc? with
              | none => rfl
              | some rc =>
                obtain ⟨rcname, vh?⟩ := rc
                cases vh? with
                | none => rfl
                | some vhs =>
                  cases vhs with
                  | nil => rfl
                  | cons vh0 vhs =>
                    obtain ⟨vhname, vhdoms, vhroutes⟩ := vh0
                    simp [addRouteListeners]

/-- When the nested path does not resolve, `addRoute` is the identity: the
document is returned unchanged and no structure is fabricated. -/
theorem addRoute_of_none {ρ : Type} {store : EnvoyConfig ρ} (rs : List ρ)
    (h : getVhRoutes? store = none) : addRoute store rs = store := by
  rcases addRouteListeners_spec store.static_resources.listeners rs with
    ⟨_, heq⟩ | ⟨r, hr, _⟩
  · rw [addRoute, heq]
  · rw [getVhRoutes?] at h
    rw [h] at hr
    exact Option.noConfusion hr

/-- When the nested path resolves to `r`, `addRoute` makes it resolve to
`r ++ rs`: the fragment's routes are appended after the existing routes. -/
theorem getVhRoutes?_addRoute {ρ : Type} {store : EnvoyConfig ρ} {r : List ρ} (rs : List ρ)
    (h : getVhRoutes? store = some r) :
    getVhRoutes? (addRoute store rs) = some (r ++ rs) := by
  rcases addRouteListeners_spec store.static_resources.listeners rs with
    ⟨hnone, _⟩ | ⟨r', hr', hres⟩
  · rw [getVhRoutes?] at h
    rw [h] at hnone
    exact Option.noConfusion hnone
  · rw [getVhRoutes?] at h
    rw [h] at hr'
    rw [getVhRoutes?, addRoute]
    simp only at hres ⊢
    rw [hres]
    rw [Option.some.inj hr']

/-- `addRoute` never touches the cluster list. -/
theorem clustersOf_addRoute {ρ : Type} (store : EnvoyConfig ρ) (rs : List ρ) :
    clustersOf (addRoute store rs) = clustersOf store := rfl

/-! ## Lemmas about one merge step and the whole build -/

/-- One merge step rewrites the cluster list with the name-merge of the
fragment's clusters and nothing else. -/
theorem clustersOf_mergeConfig {ρ : Type} (store : EnvoyConfig ρ) (s : ServiceConfg ρ) :
    clustersOf (mergeConfig store s) = mergeClusters (clustersOf store) s.clusters := rfl

/-- One merge step appends the fragment's routes after the existing routes of
the first virtual host, when the nested path resolves. -/
theorem getVhRoutes?_mergeConfig {ρ : Type} {store : EnvoyConfig ρ} {r : List ρ}
    (s : ServiceConfg ρ) (h : getVhRoutes? store = some r) :
    getVhRoutes? (mergeConfig store s) = some (r ++ s.routes) :=
  getVhRoutes?_addRoute s.routes h

/-- The name-merge fold distributes over appended fragment cluster lists. -/
theorem mergeClusters_append (cs l₁ l₂ : List Cluster) :
    mergeClusters cs (l₁ ++ l₂) = mergeClusters (mergeClusters cs l₁) l₂ := by
  simp [mergeClusters, List.foldl_append]

/-- After the whole build, the cluster list is the name-merge of the base's
cluster list with all fragments' clusters flattened in order. -/
theorem clustersOf_buildFrom {ρ : Type} (base : EnvoyConfig ρ)
    (frags : List (ServiceConfg ρ)) :
    clustersOf (buildFrom base frags) =
      mergeClusters (clustersOf base) ((frags.map (fun s => s.clusters)).flatten) := by
  induction frags generalizing base with
  | nil => rfl
  | cons s rest ih =>
    rw [show buildFrom base (s :: rest) = buildFrom (mergeConfig base s) rest from rfl,
      ih, clustersOf_mergeConfig,
      show ((s :: rest).map (fun s => s.clusters)).flatten
        = s.clusters ++ (rest.map (fun s => s.clusters)).flatten from rfl,
      mergeClusters_append]

/-- After the whole build, the first virtual host's route list is the base's
original routes followed by all fragments' routes flattened in order. -/
theorem getVhRoutes?_buildFrom {ρ : Type} {base : EnvoyConfig ρ} {r0 : List ρ}
    (frags : List (ServiceConfg ρ)) (h : getVhRoutes? base = some r0) :
    getVhRoutes? (buildFrom base frags) =
      some (r0 ++ (frags.map (fun s => s.routes)).flatten) := by
  induction frags generalizing base r0 with
  | nil => rw [show buildFrom base [] = base from rfl, h]; simp
  | cons s rest ih =>
    rw [show buildFrom base (s :: rest) = buildFrom (mergeConfig base s) rest from rfl,
      ih (getVhRoutes?_mergeConfig s h), List.append_assoc]
    rfl

/-- Replace-or-append appends when no existing cluster carries the name. -/
theorem replaceFirst_of_no_match (cs : List Cluster) (nc : Cluster)
    (h : ∀ c ∈ cs, c.name ≠ nc.name) : replaceFirst cs nc = cs ++ [nc] := by
  induction cs with
  | nil => rfl
  | cons c cs ih =>
    have hc : ¬ nc.name = c.name := fun hh => (h c (List.mem_cons_self c cs)) hh.symm
    rw [replaceFirst, if_neg hc, ih (fun c' hc' => h c' (List.mem_cons_of_mem _ hc'))]
    rfl

/-- Replace-or-append overwrites exactly the first name-match, preserving its
list position. -/
theorem replaceFirst_at_first_match (l₁ l₂ : List Cluster) (c nc : Cluster)
    (h₁ : ∀ c' ∈ l₁, c'.name ≠ nc.name) (h₂ : c.name = nc.name) :
    replaceFirst (l₁ ++ c :: l₂) nc = l₁ ++ nc :: l₂ := by
  induction l₁ with
  | nil => rw [List.nil_append, replaceFirst, if_pos h₂.symm, List.nil_append]
  | cons a l₁ ih =>
    have ha : ¬ nc.name = a.name := fun hh => (h₁ a (List.mem_cons_self a l₁)) hh.symm
    rw [List.cons_append, replaceFirst, if_neg ha,
      ih (fun c' hc' => h₁ c' (List.mem_cons_of_mem _ hc'))]
    rfl

/-! ## Claim theorems -/

/-- C1 (amended): provided the base document's cluster list already has
pairwise-distinct names, after the Compiler processes all fragments the final
cluster list contains at most one entry per name, and for every name carried
by some fragment cluster, the entry found for that name is the last cluster
with that name across the fragments in input order (last write wins, later
services taking precedence). -/
theorem c1_cluster_name_uniqueness_last_write_wins {ρ : Type} (base : EnvoyConfig ρ)
    (frags : List (ServiceConfg ρ))
    (h : ((clustersOf base).map Cluster.name).Nodup) :
    ((clustersOf (buildFrom base frags)).map Cluster.name).Nodup ∧
    ∀ n c, lastMergedCluster frags n = some c →
      clusterFind (clustersOf (buildFrom base frags)) n = some c := by
  constructor
  · rw [clustersOf_buildFrom]
    exact nodup_names_mergeClusters _ h
  · intro n c hc
    rw [clustersOf_buildFrom, clusterFind_mergeClusters]
    rw [lastMergedCluster] at hc
    rw [hc, Option.or_some]

/-- Witness for C1 on the spec's example scenario. -/
theorem c1_witness :
    ((clustersOf (buildFrom exBase exFrags)).map Cluster.name).Nodup ∧
    clusterFind (clustersOf (buildFrom exBase exFrags)) "existing_cluster" =
      some { name := "existing_cluster", type := "new" } :=
  ⟨(c1_cluster_name_uniqueness_last_write_wins exBase exFrags (by decide)).1,
   (c1_cluster_name_uniqueness_last_write_wins exBase exFrags (by decide)).2
     "existing_cluster" { name := "existing_cluster", type := "new" } (by decide)⟩

/-- C1 fails as stated: a base document whose cluster list already holds two
entries named `"dup"` still holds two entries with that name after a fragment
redefining `"dup"` is processed. -/
theorem c1_counterexample :
    ¬ ((clustersOf (buildFrom exBaseDup [exFragDup])).map Cluster.name).Nodup := by
  decide

/-- C2 (confirmed): when the base's nested virtual-host path resolves to the
original route list `r0`, after the Compiler processes all fragments the
route list of the first virtual host is exactly `r0` followed by every
fragment's routes concatenated in fragment order, and its length is
`r0.length` plus the sum of the fragment route counts; no route is removed or
deduplicated. -/
theorem c2_route_append_monotonic {ρ : Type} (base : EnvoyConfig ρ)
    (frags : List (ServiceConfg ρ)) (r0 : List ρ)
    (h : getVhRoutes? base = some r0) :
    getVhRoutes? (buildFrom base frags) =
      some (r0 ++ (frags.map (fun s => s.routes)).flatten) ∧
    (r0 ++ (frags.map (fun s => s.routes)).flatten).length =
      r0.length + (frags.map (fun s => s.routes.length)).sum := by
  refine ⟨getVhRoutes?_buildFrom frags h, ?_⟩
  simp only [List.length_append, List.length_flatten, List.map_map]
  rfl

/-- Witness for C2 on the spec's example scenario. -/
theorem c2_witness :
    getVhRoutes? (buildFrom exBase exFrags) = some ["/health", "/v1", "/v2"] ∧
    (["/health"] ++ ((exFrags.map (fun s => s.routes)).flatten)).length = 1 + 2 := by
  have h := c2_route_append_monotonic exBase exFrags ["/health"] (by decide)
  refine ⟨?_, by decide⟩
  rw [h.1]
  decide

/-- C3 (confirmed): each fragment cluster either replaces the first existing
entry with the same name at its existing position, or is appended at the end
when no entry carries the name; on the spec's example scenario the final
cluster list is `existing_cluster` (redefined in place) followed by `svc1`,
and the final routes are `"/health", "/v1", "/v2"`. -/
theorem c3_cluster_replace_or_append_example :
    (∀ (cs : List Cluster) (nc : Cluster), (∀ c ∈ cs, c.name ≠ nc.name) →
      mergeClusterOne cs nc = cs ++ [nc]) ∧
    (∀ (l₁ l₂ : List Cluster) (c nc : Cluster), (∀ c' ∈ l₁, c'.name ≠ nc.name) →
      c.name = nc.name → mergeClusterOne (l₁ ++ c :: l₂) nc = l₁ ++ nc :: l₂) ∧
    clustersOf (buildFrom exBase exFrags) =
      [{ name := "existing_cluster", type := "new" },
       { name := "svc1", type := "svc1_type" }] ∧
    getVhRoutes? (buildFrom exBase exFrags) = some ["/health", "/v1", "/v2"] := by
  refine ⟨?_, ?_, by decide, by decide⟩
  · intro cs nc h
    rw [mergeClusterOne_eq_replaceFirst]
    exact replaceFirst_of_no_match cs nc h
  · intro l₁ l₂ c nc h₁ h₂
    rw [mergeClusterOne_eq_replaceFirst]
    exact replaceFirst_at_first_match l₁ l₂ c nc h₁ h₂

/-- Witness for C3, instantiating both universally quantified conjuncts. -/
theorem c3_witness :
    mergeClusterOne [({ name := "a", type := "t" } : Cluster)]
        { name := "b", type := "u" } =
      [{ name := "a", type := "t" }, { name := "b", type := "u" }] ∧
    mergeClusterOne
        [({ name := "a", type := "t" } : Cluster), { name := "b", type := "u" },
         { name := "d", type := "w" }]
        { name := "b", type := "v" } =
      [{ name := "a", type := "t" }, { name := "b", type := "v" },
       { name := "d", type := "w" }] := by
  constructor
  · exact c3_cluster_replace_or_append_example.1 _ _ (by decide)
  · have h := c3_cluster_replace_or_append_example.2.1
      [{ name := "a", type := "t" }] [{ name := "d", type := "w" }]
      { name := "b", type := "u" } { name := "b", type := "v" } (by decide) rfl
    simpa using h

/-- C4 (confirmed): when any intermediate level of the nested virtual-host
path is absent or an empty list (the path does not resolve), merging routes is
a no-op: the document is returned unchanged, nothing is thrown (the function
is total), and the missing structure is not created (the path still does not
resolve afterwards). -/
theorem c4_route_merge_noop {ρ : Type} (store : EnvoyConfig ρ) (rs : List ρ)
    (h : getVhRoutes? store = none) :
    addRoute store rs = store ∧ getVhRoutes? (addRoute store rs) = none := by
  refine ⟨addRoute_of_none rs h, ?_⟩
  rw [addRoute_of_none rs h]
  exact h

/-- Witness for C4 on a base document with no listeners. -/
theorem c4_witness :
    addRoute exBaseNoVh ["/x"] = exBaseNoVh ∧
    getVhRoutes? (addRoute exBaseNoVh ["/x"]) = none :=
  c4_route_merge_noop exBaseNoVh ["/x"] (by decide)

/-- C10 (confirmed): when the existing cluster list carries two entries with
the merged cluster's name, only the first occurrence is replaced; the later
duplicate stays, so the merged list still has more than one entry for that
name. -/
theorem c10_duplicate_base_names_first_replaced (l₁ : List Cluster) (c₁ : Cluster)
    (l₂ : List Cluster) (c₂ : Cluster) (l₃ : List Cluster) (nc : Cluster)
    (h₁ : ∀ c ∈ l₁, c.name ≠ nc.name) (h₂ : c₁.name = nc.name)
    (h₃ : c₂.name = nc.name) :
    mergeClusterOne (l₁ ++ c₁ :: (l₂ ++ c₂ :: l₃)) nc = l₁ ++ nc :: (l₂ ++ c₂ :: l₃) ∧
    ¬ (((l₁ ++ nc :: (l₂ ++ c₂ :: l₃)).map Cluster.name).Nodup) := by
  constructor
  · rw [mergeClusterOne_eq_replaceFirst]
    exact replaceFirst_at_first_match l₁ (l₂ ++ c₂ :: l₃) c₁ nc h₁ h₂
  · intro hnodup
    rw [List.map_append, List.map_cons] at hnodup
    have h4 := hnodup.of_append_right
    rw [List.nodup_cons] at h4
    apply h4.1
    rw [List.map_append, List.map_cons]
    refine List.mem_append_right _ ?_
    rw [h₃]
    exact List.mem_cons_self _ _

/-- Witness for C10 on a concrete duplicated base. -/
theorem c10_witness :
    mergeClusterOne
        [({ name := "dup", type := "t1" } : Cluster), { name := "dup", type := "t2" }]
        { name := "dup", type := "t3" } =
      [{ name := "dup", type := "t3" }, { name := "dup", type := "t2" }] ∧
    ¬ ((([({ name := "dup", type := "t3" } : Cluster), { name := "dup", type := "t2" }]).map
        Cluster.name).Nodup) := by
  have h := c10_duplicate_base_names_first_replaced [] { name := "dup", type := "t1" }
    [] { name := "dup", type := "t2" } [] { name := "dup", type := "t3" }
    (by simp) rfl rfl
  simpa using h

/-- C9 (amended): a fragment whose `clusters` field is absent throws, and the
exception propagates to the caller through the build loop; a fragment with
empty cluster and route lists merges without error and leaves the document
unchanged; but a fragment whose `routes` field alone is absent does not
throw — `concat(undefined)` appends the single element `undefined` to the
resolved route list instead. -/
theorem c9_raw_fragment_merge {ρ : Type} :
    (∀ (store : EnvoyConfig (Option ρ)) (r? : Option (List ρ))
        (rest : List (ServiceConfgRaw ρ)),
      mergeConfigRaw store { clusters := none, routes := r? } =
        Except.error typeErrorMsg ∧
      buildRaw store ({ clusters := none, routes := r? } :: rest) =
        Except.error typeErrorMsg) ∧
    (∀ store : EnvoyConfig (Option ρ),
      mergeConfigRaw store { clusters := some [], routes := some [] } =
        Except.ok store) ∧
    (∀ (store : EnvoyConfig (Option ρ)) (cs : List Cluster),
      mergeConfigRaw store { clusters := some cs, routes := none } =
        Except.ok (addRoute
          { store with
            static_resources :=
              { store.static_resources with
                clusters := mergeClusters store.static_resources.clusters cs } }
          [none])) := by
  refine ⟨fun store r? rest => ⟨rfl, rfl⟩, fun store => ?_, fun store cs => rfl⟩
  have h : addRoute store ([] : List (Option ρ)) = store := by
    rw [addRoute, addRouteListeners_nil]
  calc mergeConfigRaw store { clusters := some [], routes := some [] }
      = Except.ok (addRoute store ([] : List (Option ρ))) := rfl
    _ = Except.ok store := by rw [h]

/-- C9 fails as stated: merging a concrete fragment whose `routes` field is
absent (with present, empty `clusters`) does not raise an exception — it
returns the merged document with `undefined` appended to the route list. -/
theorem c9_counterexample :
    mergeConfigRaw exBaseOpt { clusters := some [], routes := none } =
      Except.ok exMergedOpt := by
  decide

/-! ## Lemmas about discovery -/

/-- The collect loop is exactly a `filterMap` over the input paths: skipped
services are simply absent and the relative order of the rest is the input
order. -/
theorem collect_eq_filterMap {ρ : Type} (fs : FileSystem ρ) (cfg : String)
    (fps : List (List String)) :
    collect fs cfg fps = fps.filterMap (findServiceConfigs fs cfg) := by
  have key : ∀ (fps' : List (List String)) (acc : List (ServiceConfg ρ)),
      fps'.foldl (fun services fp =>
        match findServiceConfigs fs cfg fp with
        | some s => services ++ [s]
        | none => services) acc =
      acc ++ fps'.filterMap (findServiceConfigs fs cfg) := by
    intro fps'
    induction fps' with
    | nil => intro acc; simp
    | cons fp rest ih =>
      intro acc
      rw [List.foldl_cons, List.filterMap_cons]
      cases hfp : findServiceConfigs fs cfg fp with
      | none => simp only [hfp]; exact ih acc
      | some s => simp only [hfp]; rw [ih]; simp
  rw [collect]
  simpa using key fps []

/-- A service directory whose listing fails, or whose listing does not carry
the configured subfolder among its folders, yields no fragment. -/
theorem findServiceConfigs_none {ρ : Type} (fs : FileSystem ρ) (cfg : String)
    (fp : List String)
    (h : fs.listDir fp = none ∨ ∃ l, fs.listDir fp = some l ∧ cfg ∉ l.folders) :
    findServiceConfigs fs cfg fp = none := by
  rcases h with h | ⟨l, hl, hmem⟩
  · simp only [findServiceConfigs, h]
  · have hfind : l.folders.find? (fun f => f == cfg) = none :=
      List.find?_eq_none.mpr (fun x hx hxe => hmem ((beq_iff_eq.mp hxe) ▸ hx))
    simp only [findServiceConfigs, hl, hfind]

/-- Generic closed form of the per-file push loop: the accumulated list is the
flattened contributions of exactly the files passing the name filter, in
listing order. -/
theorem foldl_filter_append {α : Type} (pred : String → Bool) (read : String → List α) :
    ∀ (files : List String) (acc : List α),
      files.foldl (fun acc f => if pred f then acc ++ read f else acc) acc =
        acc ++ ((files.filter pred).map read).flatten := by
  intro files
  induction files with
  | nil => intro acc; simp
  | cons f rest ih =>
    intro acc
    rw [List.foldl_cons]
    cases h : pred f with
    | true => simp [h, ih, List.filter_cons, List.append_assoc]
    | false => simp [h, ih, List.filter_cons]

/-- Closed form of the route file loop. -/
theorem getRoutesFiles_eq {ρ : Type} (fs : FileSystem ρ) (folder : List String)
    (files : List String) :
    getRoutesFiles fs folder files =
      ((files.filter hasYamlToken).map (fun f => readRouteYaml fs (folder ++ [f]))).flatten := by
  rw [getRoutesFiles]
  simpa using
    foldl_filter_append hasYamlToken (fun f => readRouteYaml fs (folder ++ [f])) files []

/-- Closed form of the cluster file loop. -/
theorem getClustersFiles_eq {ρ : Type} (fs : FileSystem ρ) (folder : List String)
    (files : List String) :
    getClustersFiles fs folder files =
      ((files.filter hasYamlToken).map (fun f => readClusterYaml fs (folder ++ [f]))).flatten := by
  rw [getClustersFiles]
  simpa using
    foldl_filter_append hasYamlToken (fun f => readClusterYaml fs (folder ++ [f])) files []

/-- C5 (amended): with a nonexistent or unparsable base-document path,
`collectBase` raises the ConfigNotFound-class failure, which aborts the whole
run with an error result and no compiled document; however fragment
collection has already completed, because `execute` runs `collect()` before
`collectBase()` — the run's trace is exactly the collected services followed
by the failing base load. -/
theorem c5_missing_base_aborts_after_collect {ρ : Type} (fs : FileSystem ρ)
    (items : List (List String)) (basePath : List String) (cfg : String)
    (h : fs.readBase basePath = none) :
    collectBase fs basePath = Except.error (configNotFoundMsg basePath) ∧
    executeResult fs items basePath cfg = Except.error (configNotFoundMsg basePath) ∧
    executeSteps fs items basePath cfg =
      [ExecStep.collectServices (collect fs cfg items),
       ExecStep.loadBase (Except.error (configNotFoundMsg basePath))] := by
  have h1 : collectBase fs basePath = Except.error (configNotFoundMsg basePath) := by
    simp only [collectBase, h]
  refine ⟨h1, ?_, ?_⟩
  · simp only [executeResult, h1]
  · simp only [executeSteps, h1]

/-- Witness for C5 (amended) on a concrete file system with the base
missing. -/
theorem c5_witness :
    collectBase exFS5 ["base.yaml"] = Except.error (configNotFoundMsg ["base.yaml"]) ∧
    executeSteps exFS5 [["svc"]] ["base.yaml"] "envoy" =
      [ExecStep.collectServices (collect exFS5 "envoy" [["svc"]]),
       ExecStep.loadBase (Except.error (configNotFoundMsg ["base.yaml"]))] := by
  have h := c5_missing_base_aborts_after_collect exFS5 [["svc"]] ["base.yaml"] "envoy"
    (by decide)
  exact ⟨h.1, h.2.2⟩

/-- C5 fails as stated: on a concrete run with the base document missing,
fragment collection does proceed — the execute trace records a nonempty
collected fragment list before the failing base load. -/
theorem c5_counterexample :
    executeSteps exFS5 [["svc"]] ["base.yaml"] "envoy" =
      [ExecStep.collectServices [{ clusters := [], routes := ["/v1"] }],
       ExecStep.loadBase (Except.error (configNotFoundMsg ["base.yaml"]))] ∧
    collect exFS5 "envoy" [["svc"]] ≠ [] := by
  exact ⟨by decide, by decide⟩

/-- C6 (confirmed): a service directory whose listing fails or that does not
contain the configured subfolder yields no fragment and no error; discovery
of the other directories proceeds exactly as if the bad directory were not in
the list, and the fragment sequence decomposes around it in input order. -/
theorem c6_skip_bad_service {ρ : Type} (fs : FileSystem ρ) (cfg : String)
    (pre post : List (List String)) (bad : List String)
    (h : fs.listDir bad = none ∨ ∃ l, fs.listDir bad = some l ∧ cfg ∉ l.folders) :
    findServiceConfigs fs cfg bad = none ∧
    collect fs cfg (pre ++ bad :: post) = collect fs cfg pre ++ collect fs cfg post ∧
    collect fs cfg (pre ++ bad :: post) = collect fs cfg (pre ++ post) := by
  have hn := findServiceConfigs_none fs cfg bad h
  refine ⟨hn, ?_, ?_⟩ <;>
    simp [collect_eq_filterMap, List.filterMap_append, List.filterMap_cons, hn]

/-- Witness for C6: a directory whose listing fails is skipped and the
remaining service's fragment is unaffected. -/
theorem c6_witness :
    findServiceConfigs exFS5 "envoy" ["nope"] = none ∧
    collect exFS5 "envoy" [["svc"], ["nope"]] = collect exFS5 "envoy" [["svc"]] := by
  have h := c6_skip_bad_service exFS5 "envoy" [["svc"]] [] ["nope"] (Or.inl (by decide))
  exact ⟨h.1, h.2.2⟩

/-- C7 (confirmed): in a routes (or clusters) folder, a file that fails to
parse or lacks the expected array contributes exactly zero entries, while the
other files in the same folder are still processed — removing the malformed
file from the listing does not change the result, and discovery is a total
function (it never throws). -/
theorem c7_malformed_file_zero_contribution {ρ : Type} (fs : FileSystem ρ)
    (folder : List String) (g : String) (a b : List String) :
    ((fs.readYaml (folder ++ [g]) = none ∨
        ∃ d, fs.readYaml (folder ++ [g]) = some d ∧ d.routes = none) →
      readRouteYaml fs (folder ++ [g]) = [] ∧
      getRoutesFiles fs folder (a ++ g :: b) = getRoutesFiles fs folder (a ++ b)) ∧
    ((fs.readYaml (folder ++ [g]) = none ∨
        ∃ d, fs.readYaml (folder ++ [g]) = some d ∧ d.clusters = none) →
      readClusterYaml fs (folder ++ [g]) = [] ∧
      getClustersFiles fs folder (a ++ g :: b) = getClustersFiles fs folder (a ++ b)) := by
  constructor
  · intro h
    have hnil : readRouteYaml fs (folder ++ [g]) = [] := by
      rcases h with h | ⟨d, hd, hr⟩
      · simp [readRouteYaml, h]
      · simp [readRouteYaml, hd, hr]
    refine ⟨hnil, ?_⟩
    rw [getRoutesFiles_eq, getRoutesFiles_eq]
    cases hg : hasYamlToken g with
    | true =>
      simp [List.filter_append, List.filter_cons, hg, hnil, List.map_append,
        List.flatten_append]
    | false =>
      simp [List.filter_append, List.filter_cons, hg]
  · intro h
    have hnil : readClusterYaml fs (folder ++ [g]) = [] := by
      rcases h with h | ⟨d, hd, hr⟩
      · simp [readClusterYaml, h]
      · simp [readClusterYaml, hd, hr]
    refine ⟨hnil, ?_⟩
    rw [getClustersFiles_eq, getClustersFiles_eq]
    cases hg : hasYamlToken g with
    | true =>
      simp [List.filter_append, List.filter_cons, hg, hnil, List.map_append,
        List.flatten_append]
    | false =>
      simp [List.filter_append, List.filter_cons, hg]

/-- Witness for C7: a folder holding one valid and one unparsable file yields
exactly the valid file's routes. -/
theorem c7_witness :
    readRouteYaml exFS7 ["svc", "envoy", "routes", "bad.yaml"] = [] ∧
    getRoutesFiles exFS7 ["svc", "envoy", "routes"] ["good.yaml", "bad.yaml"] =
      getRoutesFiles exFS7 ["svc", "envoy", "routes"] ["good.yaml"] ∧
    getRoutes exFS7 ["svc", "envoy", "routes"] = ["/ok"] := by
  have h := (c7_malformed_file_zero_contribution exFS7 ["svc", "envoy", "routes"]
    "bad.yaml" ["good.yaml"] []).1 (Or.inl (by decide))
  exact ⟨h.1, h.2, by decide⟩

/-- C8 (amended): discovery reads exactly the files whose names contain the
substring `".yaml"` (JavaScript `includes`, not an extension check) inside the
routes/clusters folder, concatenating the parsed lists in the underlying
listing order without sorting; a file without the substring contributes
nothing, and every file ending in `".yaml"` passes the filter. -/
theorem c8_yaml_token_filter {ρ : Type} (fs : FileSystem ρ) (folder : List String) :
    (∀ l, fs.listDir folder = some l →
      getRoutes fs folder =
        ((l.files.filter hasYamlToken).map
          (fun f => readRouteYaml fs (folder ++ [f]))).flatten ∧
      getClusters fs folder =
        ((l.files.filter hasYamlToken).map
          (fun f => readClusterYaml fs (folder ++ [f]))).flatten) ∧
    (∀ f a b, hasYamlToken f = false →
      getRoutesFiles fs folder (a ++ f :: b) = getRoutesFiles fs folder (a ++ b)) ∧
    (∀ f, endsWithYaml f = true → hasYamlToken f = true) := by
  refine ⟨fun l hl => ?_, fun f a b hf => ?_, fun f h => ?_⟩
  · constructor
    · simp only [getRoutes, hl]
      exact getRoutesFiles_eq fs folder l.files
    · simp only [getClusters, hl]
      exact getClustersFiles_eq fs folder l.files
  · rw [getRoutesFiles_eq, getRoutesFiles_eq]
    simp [List.filter_append, List.filter_cons, hf]
  · rw [hasYamlToken, jsIncludes]
    exact decide_eq_true (of_decide_eq_true h).isInfix

/-- Witness for C8 (amended) on a concrete listing. -/
theorem c8_witness :
    getRoutes exFS8 ["svc", "envoy", "routes"] =
      (((["r.yaml.bak"]).filter hasYamlToken).map
        (fun f => readRouteYaml exFS8 (["svc", "envoy", "routes"] ++ [f]))).flatten ∧
    hasYamlToken "r.yaml" = true := by
  have h := c8_yaml_token_filter exFS8 ["svc", "envoy", "routes"]
  exact ⟨(h.1 { folders := [], files := ["r.yaml.bak"] } (by decide)).1,
    h.2.2 "r.yaml" (by decide)⟩

/-- C8 fails as stated: the file `"r.yaml.bak"` does not end in `".yaml"` yet
contributes its routes, because the filter is substring containment. -/
theorem c8_counterexample :
    endsWithYaml "r.yaml.bak" = false ∧
    getRoutes exFS8 ["svc", "envoy", "routes"] = ["/bak"] := by
  exact ⟨by decide, by decide⟩

end EnvoyProxy
